import Mathlib

/-!
Shallow embedding of the `ai-common` concurrent search-and-summarize pipeline
(`src/ai_common/utils.py`, `src/ai_common/web_search.py`,
`src/ai_common/components/web_search_node.py`) together with proofs of the
specification claims about it.

Modelling conventions:
- Python `str` values that are only carried around or compared are `String`;
  string values that get sliced by large character counts (the summarizer
  context) are `List Char`, which is the same sequence-of-code-points view
  Python slicing uses.
- A Python dict used as an ordered map is an association list
  `List (String × _)` in insertion order.
- A possibly-missing dict key / object attribute is an `Option`.
- Raising an exception is returning `Except.error`.
- `asyncio.gather` over coroutines built from pure data is `gatherExcept`:
  results come back in task-creation order, the first failing task's
  exception is raised.
-/

namespace AiCommon

/-- A web search source record as produced by the Tavily provider.
`url = none` models a record dict that lacks the `'url'` key;
`raw_content = none` models a `None` (null) raw content value. -/
structure Source where
  url : Option String
  title : String
  content : List Char
  raw_content : Option (List Char)
  deriving DecidableEq, Repr

/-- One element of the `search_response` list handled by
`deduplicate_sources`: either a dict with a `'results'` key or a bare list
of source records. -/
inductive RawSearchBatch where
  | withResults (results : List Source)
  | bare (sources : List Source)
  deriving DecidableEq, Repr

/-- The list of source records a batch contributes
(`response['results']` when the `'results'` key is present, else the
response itself). -/
def batchSources : RawSearchBatch → List Source
  | .withResults results => results
  | .bare sources => sources

/-- The `sources_list` accumulation loop of `deduplicate_sources`:
flatten all batches in batch order, keeping within-batch order. -/
def collectSources (search_response : List RawSearchBatch) : List Source :=
  search_response.foldl (fun acc response => acc ++ batchSources response) []

/-- The `for source in sources_list` loop of `deduplicate_sources`:
insert `source` keyed by `source['url']` only when the key is absent.
Accessing a missing `'url'` key raises (Python `KeyError`). -/
def dedupLoop (unique_sources : List (String × Source)) :
    List Source → Except String (List (String × Source))
  | [] => .ok unique_sources
  | source :: rest =>
    match source.url with
    | none => .error "KeyError: url"
    | some u =>
      if u ∈ unique_sources.map Prod.fst then dedupLoop unique_sources rest
      else dedupLoop (unique_sources ++ [(u, source)]) rest

/-- `deduplicate_sources` from `utils.py`: flatten the batches, then build
the url-keyed ordered map. -/
def deduplicate_sources (search_response : List RawSearchBatch) :
    Except String (List (String × Source)) :=
  dedupLoop [] (collectSources search_response)

/-- Modelled from the spec's words ("that record being the first one
encountered in flattened batch+within-batch order", "an existing entry is
never overwritten"): keep the first record of each distinct url, in
first-seen order, discarding every later record with the same url. -/
def firstSeen : List Source → List (String × Source)
  | [] => []
  | s :: rest =>
    match s.url with
    | none => firstSeen rest
    | some u => (u, s) :: firstSeen (rest.filter (fun t => decide (¬ t.url = some u)))
termination_by l => l.length
decreasing_by
  · simp only [List.length_cons]; omega
  · have h := List.length_filter_le (fun t => decide (¬ t.url = some u)) rest
    simp only [List.length_cons]; omega

/-- Boolean test used to relate the dedup loop and `firstSeen`:
the record's url key (when present) is not already a key of the map. -/
def urlKeyNotIn (unique_sources : List (String × Source)) (s : Source) : Bool :=
  match s.url with
  | none => true
  | some u => decide (u ∉ unique_sources.map Prod.fst)

/-- Concrete sources used by the dedup witnesses: two records sharing the
url `https://a` (distinct titles) and one with url `https://b`. -/
def srcA1 : Source := { url := some "https://a", title := "T1", content := [], raw_content := none }

def srcA2 : Source := { url := some "https://a", title := "T2", content := [], raw_content := none }

def srcB : Source := { url := some "https://b", title := "T3", content := [], raw_content := none }

/-- A source record whose dict lacks the `url` key. -/
def srcNoUrl : Source := { url := none, title := "T4", content := [], raw_content := none }

/-- A source record as consumed by `format_sources`. `raw_content = none`
models a dict lacking the `raw_content` key (so `source.get` falls back to
the empty string); `some none` models a `None` value; `some (some s)` a
string value. -/
structure FmtSource where
  title : String
  content : String
  raw_content : Option (Option String)
  deriving DecidableEq, Repr

/-- The `raw_content = source.get('raw_content', '')` line of
`format_sources` together with the following `is None` check: a missing
key or a `None` value both become the empty string. -/
def rawContentOf (source : FmtSource) : String :=
  match source.raw_content with
  | none => ""
  | some none => ""
  | some (some s) => s

/-- The raw-content truncation of `format_sources`: cut to `char_limit`
characters and append the marker only when the content is longer. -/
def truncateRaw (raw_content : String) (char_limit : Nat) : String :=
  if raw_content.length > char_limit then raw_content.take char_limit ++ "... [truncated]"
  else raw_content

/-- One iteration of the `format_sources` loop (`i` is the 1-based index
from `enumerate(..., 1)`). -/
def formatOneSource (i : Nat) (url : String) (source : FmtSource)
    (max_tokens_per_source : Nat) (include_raw_content : Bool) : String :=
  "Source " ++ toString i ++ ":\n\n"
    ++ "Title: " ++ source.title ++ "\n\n"
    ++ "URL: " ++ url ++ "\n\n"
    ++ "Most relevant content from source:\n" ++ source.content ++ "\n==\n\n"
    ++ (if include_raw_content then
          "Full source content limited to " ++ toString max_tokens_per_source ++ " tokens:\n "
            ++ truncateRaw (rawContentOf source) (max_tokens_per_source * 4) ++ "\n\n"
        else "")
    ++ "====================================\n\n"

/-- The whole `for i, (url, source) in enumerate(unique_sources.items(), 1)`
loop of `format_sources`. -/
def formatLoop (i : Nat) (max_tokens_per_source : Nat) (include_raw_content : Bool) :
    List (String × FmtSource) → String
  | [] => ""
  | (url, source) :: rest =>
      formatOneSource i url source max_tokens_per_source include_raw_content
        ++ formatLoop (i + 1) max_tokens_per_source include_raw_content rest

/-- Python's `str.strip()`: drop whitespace characters from both edges. -/
def pyStrip (s : String) : String :=
  ⟨((s.data.dropWhile Char.isWhitespace).reverse.dropWhile Char.isWhitespace).reverse⟩

/-- `format_sources` from `utils.py`: header, per-source blocks, and a
final whitespace strip at both edges. -/
def format_sources (unique_sources : List (String × FmtSource))
    (max_tokens_per_source : Nat) (include_raw_content : Bool) : String :=
  pyStrip ("Sources:\n\n" ++ formatLoop 1 max_tokens_per_source include_raw_content unique_sources)

/-- The `max_length = 102400  # 100K` constant of
`WebSearchNode.summarize_source`. -/
def max_length : Nat := 102400

/-- The context selection of `WebSearchNode.summarize_source`:
`source_dict['raw_content'][:max_length] if source_dict['raw_content'] is
not None else source_dict['content']`. -/
def summarizeContext (source : Source) : List Char :=
  match source.raw_content with
  | some rc => rc.take max_length
  | none => source.content

/-- `SUMMARIZER_INSTRUCTIONS` up to the `{topic}` placeholder. -/
def summarizerInstructionsPre : List Char :=
  ("\nYou are a world class researcher who is working on a report about a specific topic.\n\n<goal>\nGenerate a very high quality informative summary of the given context in accordance with the topic.\n</goal>\n\nThe topic you are working on:\n<topic>\n").toList

/-- `SUMMARIZER_INSTRUCTIONS` between the `{topic}` and `{context}`
placeholders. -/
def summarizerInstructionsMid : List Char :=
  ("\n</topic>\n\nThe context to use in generating the informative summary:\n<context>\n").toList

/-- `SUMMARIZER_INSTRUCTIONS` after the `{context}` placeholder. -/
def summarizerInstructionsPost : List Char :=
  ("\n</context>\n\nPrepare your summary according to the topic. \nInclude all necessary information related with the topic in your summary.\n").toList

/-- The prompt built by `summarize_source`:
`SUMMARIZER_INSTRUCTIONS.format(topic=topic, context=raw_content)`. -/
def summarize_source_prompt (topic : String) (source : Source) : List Char :=
  summarizerInstructionsPre ++ topic.toList ++ summarizerInstructionsMid
    ++ summarizeContext source ++ summarizerInstructionsPost

/-- A source whose raw content has 100001 characters: long enough to
separate a 100000-character cap from the actual 102400-character cap. -/
def bigRawSource : Source :=
  { url := some "https://big", title := "big", content := [],
    raw_content := some (List.replicate 100001 'a') }

/-- A source with a short present raw content and a distinct fallback
content. -/
def srcRawAbc : Source :=
  { url := some "https://x", title := "t", content := ("fallback").toList,
    raw_content := some (("abc").toList) }

/-- A source with a null raw content and a fallback content. -/
def srcRawNull : Source :=
  { url := some "https://x", title := "t", content := ("fallback").toList,
    raw_content := none }

/-- A source with an empty (but present, non-null) raw content and a
non-empty fallback content. -/
def srcEmptyRaw : Source :=
  { url := some "https://x", title := "t", content := ("fallback").toList,
    raw_content := some [] }

/-- `asyncio.gather` over tasks built from pure data: every task is
created, results come back in task-creation order, and the first failing
task's exception is raised (no partial result list is produced). -/
def gatherExcept {ε α β : Type} (f : α → Except ε β) : List α → Except ε (List β)
  | [] => .ok []
  | a :: rest =>
    match f a with
    | .error e => .error e
    | .ok b =>
      match gatherExcept f rest with
      | .error e => .error e
      | .ok bs => .ok (b :: bs)

/-- `TavilySearchCategory` from `enums.py`. -/
inductive TavilySearchCategory where
  | general
  | finance
  | news
  deriving DecidableEq, Repr

/-- The `.value` string of a search category. -/
def TavilySearchCategory.value : TavilySearchCategory → String
  | .general => "general"
  | .finance => "finance"
  | .news => "news"

/-- `TavilySearchDepth` from `enums.py`. -/
inductive TavilySearchDepth where
  | advanced
  | basic
  deriving DecidableEq, Repr

/-- The `.value` string of a search depth. -/
def TavilySearchDepth.value : TavilySearchDepth → String
  | .advanced => "advanced"
  | .basic => "basic"

/-- The keyword arguments `tavily_search_async` passes to every
`client.search` call. Dates are whole-day counts from 1919-05-19 (the
code's clamp date); `start_date = some d` models the `'start_date'` key
being present with the ISO string of day `d`, `none` would model the key
being absent (no recency restriction sent to the provider). -/
structure SearchKwargs where
  max_results : Nat
  include_raw_content : Bool
  topic : String
  search_depth : String
  chunks_per_source : Nat
  include_images : Bool
  include_image_descriptions : Bool
  include_favicon : Bool
  start_date : Option Int
  deriving DecidableEq, Repr

/-- `datetime.date.fromisoformat("1919-05-19")` in days-from-1919-05-19. -/
def date1919 : Int := 0

/-- `start_date = datetime.date.today() - datetime.timedelta(days=number_of_days_back)`. -/
def start_date_num (today number_of_days_back : Int) : Int :=
  today - number_of_days_back

/-- The day denoted by the `start_date_str` the code builds:
`start_date.isoformat() if start_date > date(1919,5,19) else "1919-05-19"`. -/
def start_date_str (today number_of_days_back : Int) : Int :=
  if start_date_num today number_of_days_back > date1919 then
    start_date_num today number_of_days_back
  else date1919

/-- The `kwargs` dict built by `tavily_search_async` in `utils.py`: note
`start_date` is set unconditionally, for every search category. -/
def tavilyKwargs (search_category : TavilySearchCategory) (search_depth : TavilySearchDepth)
    (chunks_per_source max_results : Nat)
    (include_images include_image_descriptions include_favicon : Bool)
    (today number_of_days_back : Int) : SearchKwargs :=
  { max_results := max_results
    include_raw_content := true
    topic := search_category.value
    search_depth := search_depth.value
    chunks_per_source := chunks_per_source
    include_images := include_images
    include_image_descriptions := include_image_descriptions
    include_favicon := include_favicon
    start_date := some (start_date_str today number_of_days_back) }

/-- `tavily_search_async` from `utils.py`: build one `client.search` task
per query with the shared kwargs and gather them. `search` stands for the
external provider call. -/
def tavily_search_async {R : Type} (search : String → SearchKwargs → Except String R)
    (search_queries : List String) (search_category : TavilySearchCategory)
    (search_depth : TavilySearchDepth) (chunks_per_source : Nat)
    (number_of_days_back : Int) (max_results : Nat)
    (include_images include_image_descriptions include_favicon : Bool)
    (today : Int) : Except String (List R) :=
  gatherExcept
    (fun query => search query
      (tavilyKwargs search_category search_depth chunks_per_source max_results
        include_images include_image_descriptions include_favicon today number_of_days_back))
    search_queries

/-- The per-call LLM token usage reported by
`get_usage_metadata_callback` inside `summarize_source`. -/
structure Usage where
  input_tokens : Nat
  output_tokens : Nat
  deriving DecidableEq, Repr

/-- The value returned by one `summarize_source` call: the summary text
and its token usage. -/
structure SummarizeOut where
  content : String
  token_usage : Usage
  deriving DecidableEq, Repr

/-- The pipeline state mutated by `WebSearchNode.run_async`.
`topic = none` / `search_queries = none` model a state object lacking that
attribute (Python raises `AttributeError` on access); a query equal to
`none` models a query object lacking the `search_query` attribute. -/
structure PipelineState where
  topic : Option String
  search_queries : Option (List (Option String))
  token_usage : List (String × Usage)
  source_str : String
  unique_sources : List (String × FmtSource)
  steps : List String
  deriving DecidableEq, Repr

/-- The exceptions `run_async` can raise. `strHasNoValue` is the
`AttributeError` from `NodeBase.WEB_SEARCH.value` on line 157:
`NodeBase.WEB_SEARCH` is a plain `ClassVar[str]` (`enums.py`), and a
Python `str` has no `value` attribute, so that access always raises. -/
inductive RunError where
  | missingSearchQueries
  | emptySearchQueries
  | queryMissingText (i : Nat)
  | missingTopic
  | usageKeyMissing
  | strHasNoValue
  | provider (e : String)
  deriving DecidableEq, Repr

/-- The validation errors of `run_async`'s entry checks: the
`AttributeError`/`ValueError` raised before anything else runs. -/
def RunError.IsPrecondition : RunError → Prop
  | .missingSearchQueries => True
  | .emptySearchQueries => True
  | .queryMissingText _ => True
  | .missingTopic => False
  | .usageKeyMissing => False
  | .strHasNoValue => False
  | .provider _ => False

/-- `NodeBase.WEB_SEARCH` from `enums.py`: a plain string class
attribute (not an enum member). -/
def NodeBase.WEB_SEARCH : String := "web_search"

/-- Python attribute access `.value` on a plain `str`: a `str` has no
`value` attribute, so the access always raises `AttributeError`. -/
def strValueAttr (_s : String) : Except RunError String :=
  .error .strHasNoValue

/-- An external call issued by `run_async`, recorded in issue order. -/
inductive ExtCall where
  | search (queries : List String)
  | summarize (topic : String) (source : Source)
  deriving DecidableEq, Repr

/-- The `for i, query in enumerate(state.search_queries)` loop checking
`hasattr(query, 'search_query')`: the index of the first query lacking
the attribute, if any. -/
def firstMissingIdx : List (Option String) → Option Nat
  | [] => none
  | none :: _ => some 0
  | some _ :: rest => (firstMissingIdx rest).map (· + 1)

/-- The `state.token_usage[model]` dict lookup. -/
def lookupUsage (token_usage : List (String × Usage)) (model : String) : Option Usage :=
  (token_usage.find? (fun p => decide (p.1 = model))).map Prod.snd

/-- The map update performed by the two `+=` lines of `run_async`. -/
def addUsage (token_usage : List (String × Usage)) (model : String) (din dout : Nat) :
    List (String × Usage) :=
  token_usage.map (fun p =>
    if p.1 = model then (p.1, ⟨p.2.input_tokens + din, p.2.output_tokens + dout⟩) else p)

/-- `state.token_usage[self.model_name]['input_tokens'] += ...` and the
matching output-token line: `KeyError` when the model has no entry,
otherwise add both deltas to its entry. -/
def bumpUsage (token_usage : List (String × Usage)) (model : String) (din dout : Nat) :
    Except RunError (List (String × Usage)) :=
  match lookupUsage token_usage model with
  | none => .error .usageKeyMissing
  | some _ => .ok (addUsage token_usage model din dout)

/-- The outcome of one `run_async` call: the external calls issued (in
issue order), the raised exception or success, and the state object as the
call leaves it. Python mutates the caller's state in place, and every
mutation sits after the summarization gather and the usage lookup, so on
any error the state is the original one. -/
structure RunOutcome where
  calls : List ExtCall
  result : Except RunError Unit
  state : PipelineState
  deriving Repr

/-- `WebSearchNode.run_async` from `web_search_node.py`. `webSearch`
stands for the `self.web_search.search` gateway call (returning the
deduplicated unique-source map) and `summarize` for one
`summarize_source` LLM call; both are awaited external operations.
The gateway call site as wired omits five required parameters of
`WebSearch.search` (`search_depth`, `chunks_per_source`,
`include_images`, `include_image_descriptions`, `include_favicon`), which
Python rejects with a `TypeError` before any network traffic; the
`Except.error` outcome of the `webSearch` oracle covers that failure
along with provider failures. After a successful fan-out the code
updates `token_usage`, builds the merged map and `source_str` into
locals, and then `state.steps.append(NodeBase.WEB_SEARCH.value)` raises
`AttributeError` unconditionally (see `strValueAttr`), so `steps`,
`source_str` and `unique_sources` are never assigned and the success
continuation below it is unreachable. -/
def run_async (webSearch : List String → Except String (List (String × Source)))
    (summarize : String → Source → Except String SummarizeOut)
    (model_name : String) (max_tokens_per_source : Nat)
    (state : PipelineState) : RunOutcome :=
  match state.search_queries with
  | none => ⟨[], .error .missingSearchQueries, state⟩
  | some qs =>
    match qs with
    | [] => ⟨[], .error .emptySearchQueries, state⟩
    | _ :: _ =>
      match firstMissingIdx qs with
      | some i => ⟨[], .error (.queryMissingText i), state⟩
      | none =>
        let queries := qs.map (fun q => q.getD "")
        match webSearch queries with
        | .error e => ⟨[.search queries], .error (.provider e), state⟩
        | .ok unique_sources =>
          match unique_sources, state.topic with
          | _ :: _, none =>
            -- building the task list evaluates `state.topic` once per
            -- source, so a missing topic raises only when at least one
            -- unique source came back, and after the search call
            ⟨[.search queries], .error .missingTopic, state⟩
          | us, topicAttr =>
            let unique_sources := us
            let topic := topicAttr.getD ""
            let calls := .search queries ::
              unique_sources.map (fun kv => ExtCall.summarize topic kv.2)
            match gatherExcept (summarize topic) (unique_sources.map Prod.snd) with
            | .error e => ⟨calls, .error (.provider e), state⟩
            | .ok out =>
              match bumpUsage state.token_usage model_name
                  ((out.map (fun t => t.token_usage.input_tokens)).sum)
                  ((out.map (fun t => t.token_usage.output_tokens)).sum) with
              | .error e => ⟨calls, .error e, state⟩
              | .ok tu =>
                let merged := (unique_sources.zip out).map
                  (fun p => (p.1.1, FmtSource.mk p.1.2.title p.2.content none))
                let src_str := format_sources merged max_tokens_per_source false
                match strValueAttr NodeBase.WEB_SEARCH with
                | .error e => ⟨calls, .error e, { state with token_usage := tu }⟩
                | .ok stepName =>
                  ⟨calls, .ok (),
                    { state with
                        token_usage := tu
                        steps := state.steps ++ [stepName]
                        source_str := src_str
                        unique_sources := merged }⟩

/-- Concrete unique sources returned by the stub gateways below. -/
def srcW1 : Source :=
  { url := some "https://a", title := "A", content := ("ca").toList, raw_content := none }

def srcW2 : Source :=
  { url := some "https://b", title := "B", content := ("cb").toList, raw_content := none }

/-- A gateway returning one unique source. -/
def wsOne : List String → Except String (List (String × Source)) :=
  fun _ => .ok [("https://a", srcW1)]

/-- A gateway returning two unique sources. -/
def wsTwo : List String → Except String (List (String × Source)) :=
  fun _ => .ok [("https://a", srcW1), ("https://b", srcW2)]

/-- A summarizer whose every call fails. -/
def sumFail : String → Source → Except String SummarizeOut :=
  fun _ _ => .error "rate limit"

/-- A summarizer reporting distinct usages for the two stub sources. -/
def sumUse : String → Source → Except String SummarizeOut :=
  fun _ s => .ok ⟨"summary", if s.url = some "https://a" then ⟨3, 4⟩ else ⟨10, 20⟩⟩

/-- A gateway returning no unique sources at all. -/
def wsEmpty : List String → Except String (List (String × Source)) :=
  fun _ => .ok []

/-- A fully valid input state with non-zero starting usage for model `m`. -/
def stBase : PipelineState :=
  { topic := some "t", search_queries := some [some "q"],
    token_usage := [("m", ⟨7, 5⟩)], source_str := "",
    unique_sources := [], steps := [] }

/-- `stBase` without the `topic` attribute. -/
def stNoTopic : PipelineState := { stBase with topic := none }

/-- `stBase` without the `search_queries` attribute. -/
def stNoQueries : PipelineState := { stBase with search_queries := none }

/-- `stBase` with an empty (present) topic string. -/
def stEmptyTopic : PipelineState := { stBase with topic := some "" }

theorem find?_filter_of_imp {α : Type} (p q : α → Bool) :
    ∀ l : List α, (∀ x ∈ l, p x = true → q x = true) →
      (l.filter q).find? p = l.find? p := by
  intro l
  induction l with
  | nil => intro _; rfl
  | cons x rest ih =>
    intro h
    by_cases hq : q x = true
    · rw [List.filter_cons_of_pos hq]
      by_cases hp : p x = true
      · rw [List.find?_cons_of_pos _ hp, List.find?_cons_of_pos _ hp]
      · rw [List.find?_cons_of_neg _ hp, List.find?_cons_of_neg _ hp]
        exact ih (fun y hy => h y (List.mem_cons_of_mem x hy))
    · have hp : ¬ p x = true := fun hp => hq (h x (List.mem_cons_self x rest) hp)
      rw [List.filter_cons_of_neg hq, List.find?_cons_of_neg _ hp]
      exact ih (fun y hy => h y (List.mem_cons_of_mem x hy))

theorem mem_firstSeen : ∀ (l : List Source) (v : String) (t : Source),
    (v, t) ∈ firstSeen l → t ∈ l ∧ t.url = some v := by
  intro l
  induction l using firstSeen.induct with
  | case1 => intro v t h; simp [firstSeen] at h
  | case2 s rest hnone ih =>
    intro v t h
    rw [firstSeen] at h
    simp only [hnone] at h
    obtain ⟨h1, h2⟩ := ih v t h
    exact ⟨List.mem_cons_of_mem s h1, h2⟩
  | case3 s rest u hurl ih =>
    intro v t h
    rw [firstSeen] at h
    simp only [hurl, List.mem_cons] at h
    rcases h with h | h
    · injection h with h1 h2
      subst h1; subst h2
      exact ⟨List.mem_cons_self _ _, hurl⟩
    · obtain ⟨h1, h2⟩ := ih v t h
      exact ⟨List.mem_cons_of_mem s (List.mem_of_mem_filter h1), h2⟩

theorem firstSeen_keys_nodup : ∀ l : List Source,
    ((firstSeen l).map Prod.fst).Nodup := by
  intro l
  induction l using firstSeen.induct with
  | case1 => simp [firstSeen]
  | case2 s rest hnone ih => rw [firstSeen]; simp only [hnone]; exact ih
  | case3 s rest u hurl ih =>
    rw [firstSeen]
    simp only [hurl, List.map_cons, List.nodup_cons]
    refine ⟨?_, ih⟩
    intro hmem
    obtain ⟨⟨v, t⟩, hvt, hfst⟩ := List.mem_map.mp hmem
    simp only at hfst
    subst hfst
    obtain ⟨h1, _h2⟩ := mem_firstSeen _ _ _ hvt
    have := List.of_mem_filter h1
    simp only [decide_eq_true_eq] at this
    exact this (_h2)

theorem mem_firstSeen_keys : ∀ (l : List Source) (u : String),
    u ∈ (firstSeen l).map Prod.fst ↔ ∃ s ∈ l, s.url = some u := by
  intro l
  induction l using firstSeen.induct with
  | case1 => intro u; simp [firstSeen]
  | case2 s rest hnone ih =>
    intro u
    rw [firstSeen]
    simp only [hnone]
    rw [ih u]
    constructor
    · rintro ⟨t, ht, hturl⟩
      exact ⟨t, List.mem_cons_of_mem s ht, hturl⟩
    · rintro ⟨t, ht, hturl⟩
      rcases List.mem_cons.mp ht with rfl | ht
      · rw [hnone] at hturl; exact absurd hturl (by simp)
      · exact ⟨t, ht, hturl⟩
  | case3 s rest u0 hurl ih =>
    intro u
    rw [firstSeen]
    simp only [hurl, List.map_cons, List.mem_cons]
    constructor
    · rintro (rfl | hmem)
      · exact ⟨s, Or.inl rfl, hurl⟩
      · obtain ⟨t, ht, hturl⟩ := (ih u).mp hmem
        exact ⟨t, Or.inr (List.mem_of_mem_filter ht), hturl⟩
    · rintro ⟨t, ht, hturl⟩
      rcases ht with rfl | ht
      · left; rw [hurl] at hturl; exact (Option.some.injEq .. ▸ hturl).symm
      · by_cases huu : u = u0
        · exact Or.inl huu
        · refine Or.inr ((ih u).mpr ⟨t, ?_, hturl⟩)
          refine List.mem_filter.mpr ⟨ht, ?_⟩
          simp only [decide_eq_true_eq]
          rw [hturl]
          intro hc
          exact huu (Option.some.injEq .. ▸ hc)

theorem firstSeen_find? : ∀ (l : List Source) (u : String) (s : Source),
    (u, s) ∈ firstSeen l →
      l.find? (fun t => decide (t.url = some u)) = some s := by
  intro l
  induction l using firstSeen.induct with
  | case1 => intro u s h; simp [firstSeen] at h
  | case2 t rest hnone ih =>
    intro u s h
    rw [firstSeen] at h
    simp only [hnone] at h
    rw [List.find?_cons_of_neg _ (by simp [hnone])]
    exact ih u s h
  | case3 t rest u0 hurl ih =>
    intro u s h
    rw [firstSeen] at h
    simp only [hurl, List.mem_cons] at h
    rcases h with h | h
    · injection h with h1 h2
      subst h1; subst h2
      rw [List.find?_cons_of_pos _ (by simp [hurl])]
    · have hne : u ≠ u0 := by
        intro hc
        subst hc
        obtain ⟨h1, _⟩ := mem_firstSeen _ _ _ h
        have := List.of_mem_filter h1
        simp only [decide_eq_true_eq] at this
        exact this (mem_firstSeen _ _ _ h).2
      rw [List.find?_cons_of_neg _ (by simp [hurl]; intro hc; exact hne hc.symm)]
      rw [← find?_filter_of_imp (fun t => decide (t.url = some u))
            (fun t => decide (¬ t.url = some u0)) rest ?_]
      · exact ih u s h
      · intro x _ hx
        simp only [decide_eq_true_eq] at hx ⊢
        rw [hx]
        intro hc
        exact hne (Option.some.injEq .. ▸ hc)

theorem dedupLoop_eq_firstSeen :
    ∀ (l : List Source) (m : List (String × Source)),
      (∀ s ∈ l, s.url ≠ none) →
      dedupLoop m l = .ok (m ++ firstSeen (l.filter (urlKeyNotIn m))) := by
  intro l
  induction l with
  | nil => intro m _; simp [dedupLoop, firstSeen]
  | cons s rest ih =>
    intro m h
    obtain ⟨u, hu⟩ : ∃ u, s.url = some u := by
      cases hs : s.url with
      | none => exact absurd hs (h s (List.mem_cons_self s rest))
      | some u => exact ⟨u, rfl⟩
    rw [dedupLoop]
    simp only [hu]
    by_cases hmem : u ∈ m.map Prod.fst
    · rw [if_pos hmem]
      rw [ih m (fun t ht => h t (List.mem_cons_of_mem s ht))]
      have hdrop : urlKeyNotIn m s = false := by
        simp [urlKeyNotIn, hu, hmem]
      rw [List.filter_cons_of_neg (by rw [hdrop]; exact Bool.false_ne_true)]
    · rw [if_neg hmem]
      rw [ih (m ++ [(u, s)]) (fun t ht => h t (List.mem_cons_of_mem s ht))]
      have hkeep : urlKeyNotIn m s = true := by
        simp [urlKeyNotIn, hu, hmem]
      rw [List.filter_cons_of_pos hkeep]
      rw [firstSeen]
      simp only [hu]
      rw [List.filter_filter]
      have hpred : ∀ x ∈ rest,
          (decide (¬ x.url = some u) && urlKeyNotIn m x)
            = urlKeyNotIn (m ++ [(u, s)]) x := by
        intro t _
        cases hturl : t.url with
        | none => simp [urlKeyNotIn, hturl]
        | some v =>
          simp only [urlKeyNotIn, hturl, List.map_append, List.map_cons, List.map_nil,
            List.mem_append, List.mem_singleton, Option.some.injEq]
          by_cases hv : v = u
          · subst hv
            simp
          · simp [hv, Ne.symm hv]
      rw [List.filter_congr hpred]
      simp [List.append_assoc]

theorem dedupLoop_error_of_missing_url :
    ∀ (l : List Source) (m : List (String × Source)),
      (∃ s ∈ l, s.url = none) → ∃ e, dedupLoop m l = .error e := by
  intro l
  induction l with
  | nil => intro m h; obtain ⟨s, hs, _⟩ := h; exact absurd hs (List.not_mem_nil s)
  | cons s rest ih =>
    intro m h
    cases hs : s.url with
    | none =>
      refine ⟨"KeyError: url", ?_⟩
      rw [dedupLoop]
      simp only [hs]
    | some u =>
      obtain ⟨t, ht, hturl⟩ := h
      rcases List.mem_cons.mp ht with rfl | ht
      · rw [hs] at hturl; exact absurd hturl (by simp)
      · rw [dedupLoop]
        simp only [hs]
        by_cases hmem : u ∈ m.map Prod.fst


        · rw [if_pos hmem]; exact ih m ⟨t, ht, hturl⟩
        · rw [if_neg hmem]; exact ih (m ++ [(u, s)]) ⟨t, ht, hturl⟩

/-- C2: for every sequence of batches (each either a record with a
`results` field or a bare sequence of records) in which every record has a
url, `deduplicate_sources` returns exactly the first-seen map: one entry
per distinct url, holding the first record encountered in flattened
batch-then-within-batch order, in first-seen insertion order, with later
duplicates never overwriting an existing entry. -/
theorem deduplicate_sources_first_seen (batches : List RawSearchBatch)
    (h : ∀ s ∈ collectSources batches, s.url ≠ none) :
    deduplicate_sources batches = Except.ok (firstSeen (collectSources batches))
    ∧ ((firstSeen (collectSources batches)).map Prod.fst).Nodup
    ∧ (∀ u, u ∈ (firstSeen (collectSources batches)).map Prod.fst ↔
        ∃ s ∈ collectSources batches, s.url = some u)
    ∧ (∀ u s, (u, s) ∈ firstSeen (collectSources batches) →
        s.url = some u ∧
        (collectSources batches).find? (fun t => decide (t.url = some u)) = some s) := by
  refine ⟨?_, firstSeen_keys_nodup _, mem_firstSeen_keys _, ?_⟩
  · rw [deduplicate_sources, dedupLoop_eq_firstSeen _ [] h]
    have hall : (collectSources batches).filter (urlKeyNotIn []) = collectSources batches := by
      apply List.filter_eq_self.mpr
      intro t _
      cases hturl : t.url with
      | none => simp [urlKeyNotIn, hturl]
      | some u => simp [urlKeyNotIn, hturl]
    rw [hall, List.nil_append]
  · intro u s hus
    exact ⟨(mem_firstSeen _ _ _ hus).2, firstSeen_find? _ _ _ hus⟩

/-- Witness for C2: on batches `[{results: [A1]}, [A2, B]]` every record
has a url, and the deduplicated map is `{https://a ↦ A1, https://b ↦ B}` —
the later duplicate `A2` is discarded. -/
theorem deduplicate_sources_first_seen_witness :
    (∀ s ∈ collectSources [RawSearchBatch.withResults [srcA1], RawSearchBatch.bare [srcA2, srcB]],
        s.url ≠ none)
    ∧ deduplicate_sources [RawSearchBatch.withResults [srcA1], RawSearchBatch.bare [srcA2, srcB]]
        = Except.ok (firstSeen
            (collectSources [RawSearchBatch.withResults [srcA1], RawSearchBatch.bare [srcA2, srcB]]))
    ∧ deduplicate_sources [RawSearchBatch.withResults [srcA1], RawSearchBatch.bare [srcA2, srcB]]
        = Except.ok [("https://a", srcA1), ("https://b", srcB)] :=
  ⟨by decide,
    (deduplicate_sources_first_seen
      [RawSearchBatch.withResults [srcA1], RawSearchBatch.bare [srcA2, srcB]] (by decide)).1,
    by rfl⟩

/-- C9: for every batch sequence containing a record that lacks the `url`
field, `deduplicate_sources` raises (returns an error) rather than
silently dropping or skipping the record. -/
theorem deduplicate_sources_error_on_missing_url (batches : List RawSearchBatch)
    (h : ∃ s ∈ collectSources batches, s.url = none) :
    ∃ e, deduplicate_sources batches = .error e :=
  dedupLoop_error_of_missing_url (collectSources batches) [] h

/-- Witness for C9: a batch holding a well-formed record followed by a
record without a url makes `deduplicate_sources` fail. -/
theorem deduplicate_sources_error_on_missing_url_witness :
    (∃ s ∈ collectSources [RawSearchBatch.bare [srcA1, srcNoUrl]], s.url = none)
    ∧ ∃ e, deduplicate_sources [RawSearchBatch.bare [srcA1, srcNoUrl]] = .error e :=
  ⟨by decide,
    deduplicate_sources_error_on_missing_url [RawSearchBatch.bare [srcA1, srcNoUrl]] (by decide)⟩

/-- C8: with `max_tokens_per_source = 1` and a present 10-character
`raw_content`, the rendered raw portion is the first 4 characters plus the
truncation marker; a null or missing `raw_content` renders as the empty
string; in general the raw content is cut to `max_tokens_per_source * 4`
characters with the marker appended exactly when it exceeds that limit;
and the whole `format_sources` output is the concatenated text trimmed of
whitespace at both edges (shown concretely on a one-source map). -/
theorem format_sources_truncation_boundary :
    (∀ (t c s : String), s.length = 10 →
      truncateRaw (rawContentOf ⟨t, c, some (some s)⟩) (1 * 4)
        = s.take 4 ++ "... [truncated]")
    ∧ (∀ t c : String, rawContentOf ⟨t, c, some none⟩ = "" ∧ rawContentOf ⟨t, c, none⟩ = "")
    ∧ (∀ (s : String) (limit : Nat),
        (s.length > limit → truncateRaw s limit = s.take limit ++ "... [truncated]")
        ∧ (¬ s.length > limit → truncateRaw s limit = s))
    ∧ (∀ (us : List (String × FmtSource)) (m : Nat) (inc : Bool),
        format_sources us m inc = pyStrip ("Sources:\n\n" ++ formatLoop 1 m inc us))
    ∧ format_sources [("u", ⟨"T", "C", some (some "0123456789")⟩)] 1 true
        = "Sources:\n\nSource 1:\n\nTitle: T\n\nURL: u\n\nMost relevant content from source:\nC\n==\n\nFull source content limited to 1 tokens:\n 0123... [truncated]\n\n====================================" := by
  refine ⟨?_, ?_, ?_, ?_, ?_⟩
  · intro t c s h
    simp only [rawContentOf, truncateRaw, h]
    norm_num
  · intro t c
    exact ⟨rfl, rfl⟩
  · intro s limit
    constructor
    · intro h
      simp only [truncateRaw, if_pos h]
    · intro h
      simp only [truncateRaw, if_neg h]
  · intro us m inc
    rfl
  · rfl

/-- Witness for C8: the truncation conjunct instantiated at the
10-character raw content `0123456789` with `max_tokens_per_source = 1`. -/
theorem format_sources_truncation_boundary_witness :
    ("0123456789" : String).length = 10
    ∧ truncateRaw (rawContentOf ⟨"T", "C", some (some "0123456789")⟩) (1 * 4)
        = ("0123456789" : String).take 4 ++ "... [truncated]"
    ∧ ("abc" : String).length > 2
    ∧ truncateRaw "abc" 2 = ("abc" : String).take 2 ++ "... [truncated]"
    ∧ ¬ ("abc" : String).length > 3
    ∧ truncateRaw "abc" 3 = "abc" :=
  ⟨by decide,
    format_sources_truncation_boundary.1 "T" "C" "0123456789" (by decide),
    by decide,
    (format_sources_truncation_boundary.2.2.1 "abc" 2).1 (by decide),
    by decide,
    (format_sources_truncation_boundary.2.2.1 "abc" 3).2 (by decide)⟩

/-- Counterexample to C5 as stated: on a present, non-null raw content of
100001 characters the summarizer context is NOT the first 100000
characters of it — the code cuts at `max_length = 102400` (100 KiB), so
all 100001 characters survive. -/
theorem summarize_cap_not_100000 :
    summarizeContext bigRawSource ≠ (List.replicate 100001 'a').take 100000 := by
  intro h
  have h1 : (summarizeContext bigRawSource).length = 100001 := by
    simp only [summarizeContext, bigRawSource, max_length, List.length_take,
      List.length_replicate]
    omega
  have h2 : ((List.replicate 100001 'a').take 100000).length = 100000 := by
    simp only [List.length_take, List.length_replicate]
    omega
  rw [h, h2] at h1
  exact absurd h1 (by norm_num)

/-- C5 (amended): for every source whose `raw_content` is present and
non-null, `summarize_source` builds the prompt from `raw_content`
truncated to 102400 characters (the code's `max_length`, 100 KiB); when
`raw_content` is null it falls back to `content` verbatim. -/
theorem summarize_source_truncates_at_102400 (topic : String) (source : Source) :
    (∀ rc, source.raw_content = some rc →
      summarize_source_prompt topic source
        = summarizerInstructionsPre ++ topic.toList ++ summarizerInstructionsMid
            ++ rc.take 102400 ++ summarizerInstructionsPost)
    ∧ (source.raw_content = none →
      summarize_source_prompt topic source
        = summarizerInstructionsPre ++ topic.toList ++ summarizerInstructionsMid
            ++ source.content ++ summarizerInstructionsPost) := by
  constructor
  · intro rc h
    simp only [summarize_source_prompt, summarizeContext, h, max_length]
  · intro h
    simp only [summarize_source_prompt, summarizeContext, h]

/-- Witness for the amended C5 at concrete sources: the prompt of a source
with raw content `abc` embeds `abc` (truncated at 102400), and the prompt
of a source with null raw content embeds the `content` fallback. -/
theorem summarize_source_truncates_at_102400_witness :
    srcRawAbc.raw_content = some (("abc").toList)
    ∧ summarize_source_prompt "t" srcRawAbc
        = summarizerInstructionsPre ++ ("t").toList ++ summarizerInstructionsMid
            ++ (("abc").toList).take 102400 ++ summarizerInstructionsPost
    ∧ srcRawNull.raw_content = none
    ∧ summarize_source_prompt "t" srcRawNull
        = summarizerInstructionsPre ++ ("t").toList ++ summarizerInstructionsMid
            ++ srcRawNull.content ++ summarizerInstructionsPost :=
  ⟨rfl,
    (summarize_source_truncates_at_102400 "t" srcRawAbc).1 (("abc").toList) rfl,
    rfl,
    (summarize_source_truncates_at_102400 "t" srcRawNull).2 rfl⟩

/-- C10: a raw content that is present but equal to the empty string is
used as the (empty) context — the fallback to `content` happens only when
`raw_content` is exactly null. -/
theorem summarize_empty_raw_content_no_fallback (source : Source) :
    (source.raw_content = some [] → summarizeContext source = [])
    ∧ (source.raw_content = none → summarizeContext source = source.content) := by
  constructor
  · intro h
    simp only [summarizeContext, h, List.take_nil]
  · intro h
    simp only [summarizeContext, h]

/-- Witness for C10: on a source with empty present raw content the
context is empty, and in particular differs from the non-empty `content`
fallback. -/
theorem summarize_empty_raw_content_no_fallback_witness :
    srcEmptyRaw.raw_content = some []
    ∧ summarizeContext srcEmptyRaw = []
    ∧ summarizeContext srcEmptyRaw ≠ srcEmptyRaw.content := by
  refine ⟨rfl, (summarize_empty_raw_content_no_fallback srcEmptyRaw).1 rfl, ?_⟩
  rw [(summarize_empty_raw_content_no_fallback srcEmptyRaw).1 rfl]
  decide

theorem gatherExcept_ok {ε α β : Type} (f : α → Except ε β) :
    ∀ (l : List α) (bs : List β), gatherExcept f l = .ok bs →
      bs.length = l.length ∧ List.Forall₂ (fun a b => f a = .ok b) l bs := by
  intro l
  induction l with
  | nil =>
    intro bs h
    rw [gatherExcept] at h
    injection h with h
    subst h
    exact ⟨rfl, List.Forall₂.nil⟩
  | cons a rest ih =>
    intro bs h
    rw [gatherExcept] at h
    cases hfa : f a with
    | error e => rw [hfa] at h; exact absurd h (by simp)
    | ok b =>
      rw [hfa] at h
      cases hrest : gatherExcept f rest with
      | error e => rw [hrest] at h; exact absurd h (by simp)
      | ok bs0 =>
        rw [hrest] at h
        injection h with h
        subst h
        obtain ⟨hlen, hall⟩ := ih bs0 hrest
        exact ⟨by simp [hlen], List.Forall₂.cons hfa hall⟩

theorem gatherExcept_of_forall₂ {ε α β : Type} (f : α → Except ε β) :
    ∀ (l : List α) (bs : List β), List.Forall₂ (fun a b => f a = .ok b) l bs →
      gatherExcept f l = .ok bs := by
  intro l
  induction l with
  | nil =>
    intro bs h
    cases h
    rfl
  | cons a rest ih =>
    intro bs h
    cases h with
    | cons hab hrest =>
      rw [gatherExcept, hab, ih _ hrest]

theorem gatherExcept_error_of_mem {ε α β : Type} (f : α → Except ε β) :
    ∀ l : List α, (∃ a ∈ l, ∃ e, f a = .error e) →
      ∃ e, gatherExcept f l = .error e := by
  intro l
  induction l with
  | nil =>
    rintro ⟨a, ha, _⟩
    exact absurd ha (List.not_mem_nil a)
  | cons a rest ih =>
    rintro ⟨b, hb, e, hbe⟩
    cases hfa : f a with
    | error e0 => exact ⟨e0, by rw [gatherExcept, hfa]⟩
    | ok v =>
      rcases List.mem_cons.mp hb with rfl | hb
      · rw [hfa] at hbe; exact absurd hbe (by simp)
      · obtain ⟨e1, he1⟩ := ih ⟨b, hb, e, hbe⟩
        exact ⟨e1, by rw [gatherExcept, hfa, he1]⟩

/-- C4 (code evaluated at the failing input): the code derives the
`start_date` cutoff from the recency window and passes it to the provider
for EVERY category — in particular for `general` and `finance`, where the
claim (and the function's own docstring) say no recency restriction is
passed. With `today = 39200` and `number_of_days_back = 30` the `general`
and `finance` calls still carry `start_date = some 39170`. -/
theorem tavily_start_date_passed_for_all_categories :
    (∀ (category : TavilySearchCategory) (depth : TavilySearchDepth)
        (chunks max_results : Nat) (i1 i2 i3 : Bool) (today days : Int),
      (tavilyKwargs category depth chunks max_results i1 i2 i3 today days).start_date
        = some (start_date_str today days))
    ∧ (tavilyKwargs .general .basic 3 5 false false false 39200 30).start_date = some 39170
    ∧ (tavilyKwargs .finance .basic 3 5 false false false 39200 30).start_date = some 39170
    ∧ (tavilyKwargs .news .basic 3 5 false false false 39200 30).start_date = some 39170 := by
  refine ⟨fun _ _ _ _ _ _ _ _ _ => rfl, ?_, ?_, ?_⟩ <;> decide

/-- C7: whenever the gateway returns, its output list has exactly one
entry per input query and `output[i]` is the provider's result for
`queries[i]` (with the shared kwargs), index for index. -/
theorem tavily_search_preserves_order {R : Type}
    (search : String → SearchKwargs → Except String R)
    (search_queries : List String) (search_category : TavilySearchCategory)
    (search_depth : TavilySearchDepth) (chunks_per_source : Nat)
    (number_of_days_back : Int) (max_results : Nat)
    (include_images include_image_descriptions include_favicon : Bool)
    (today : Int) (results : List R)
    (h : tavily_search_async search search_queries search_category search_depth
        chunks_per_source number_of_days_back max_results include_images
        include_image_descriptions include_favicon today = .ok results) :
    results.length = search_queries.length
    ∧ List.Forall₂
        (fun query r => search query
          (tavilyKwargs search_category search_depth chunks_per_source max_results
            include_images include_image_descriptions include_favicon today
            number_of_days_back) = .ok r)
        search_queries results :=
  gatherExcept_ok _ search_queries results h

/-- Witness for C7: a provider that answers query `q` with `q ++ "!"`
yields exactly `["a!", "b!"]` for the queries `["a", "b"]`. -/
theorem tavily_search_preserves_order_witness :
    tavily_search_async (fun q _ => Except.ok (q ++ "!")) ["a", "b"]
        .general .basic 3 30 5 false false false 39200 = .ok ["a!", "b!"]
    ∧ (["a!", "b!"] : List String).length = (["a", "b"] : List String).length :=
  ⟨rfl,
    (tavily_search_preserves_order (fun q _ => Except.ok (q ++ "!")) ["a", "b"]
      .general .basic 3 30 5 false false false 39200 ["a!", "b!"] rfl).1⟩

theorem lookupUsage_addUsage (model : String) (a b : Nat) (u : Usage) :
    ∀ tu : List (String × Usage), lookupUsage tu model = some u →
      lookupUsage (addUsage tu model a b) model
        = some ⟨u.input_tokens + a, u.output_tokens + b⟩ := by
  intro tu
  induction tu with
  | nil => intro h; simp [lookupUsage] at h
  | cons p rest ih =>
    intro h
    by_cases hp : p.1 = model
    · rw [lookupUsage, List.find?_cons_of_pos _ (by simp [hp])] at h
      simp only [Option.map_some'] at h
      injection h with h2
      rw [addUsage, List.map_cons, if_pos hp]
      rw [lookupUsage, List.find?_cons_of_pos _ (by simp [hp])]
      simp [h2]
    · rw [lookupUsage, List.find?_cons_of_neg _ (by simp [hp])] at h
      rw [addUsage, List.map_cons, if_neg hp]
      rw [lookupUsage, List.find?_cons_of_neg _ (by simp [hp])]
      exact ih h

theorem exists_firstMissingIdx_of_mem :
    ∀ qs : List (Option String), none ∈ qs → ∃ i, firstMissingIdx qs = some i := by
  intro qs
  induction qs with
  | nil => intro h; exact absurd h (List.not_mem_nil none)
  | cons q rest ih =>
    intro h
    cases q with
    | none => exact ⟨0, rfl⟩
    | some t =>
      rcases List.mem_cons.mp h with h0 | h0
      · exact absurd h0.symm (by simp)
      · obtain ⟨i, hi⟩ := ih h0
        exact ⟨i + 1, by rw [firstMissingIdx, hi]; rfl⟩

theorem run_async_gather_error
    (webSearch : List String → Except String (List (String × Source)))
    (summarize : String → Source → Except String SummarizeOut)
    (model_name : String) (max_tokens_per_source : Nat)
    (state : PipelineState) (qs : List (Option String)) (topic : String)
    (sources : List (String × Source)) (e : String)
    (hq : state.search_queries = some qs) (hne : qs ≠ [])
    (hall : firstMissingIdx qs = none) (ht : state.topic = some topic)
    (hs : webSearch (qs.map (fun q => q.getD "")) = .ok sources)
    (hg : gatherExcept (summarize topic) (sources.map Prod.snd) = .error e) :
    run_async webSearch summarize model_name max_tokens_per_source state
      = ⟨ExtCall.search (qs.map (fun q => q.getD ""))
            :: sources.map (fun kv => ExtCall.summarize topic kv.2),
         .error (.provider e), state⟩ := by
  cases qs with
  | nil => exact absurd rfl hne
  | cons q0 qs0 =>
    cases sources with
    | nil => simp [gatherExcept] at hg
    | cons s0 srest => simp only [run_async, hq, hall, ht, hs, hg, Option.getD_some]

theorem run_async_fanout_ok
    (webSearch : List String → Except String (List (String × Source)))
    (summarize : String → Source → Except String SummarizeOut)
    (model_name : String) (max_tokens_per_source : Nat)
    (state : PipelineState) (qs : List (Option String)) (topic : String)
    (sources : List (String × Source)) (out : List SummarizeOut) (u : Usage)
    (hq : state.search_queries = some qs) (hne : qs ≠ [])
    (hall : firstMissingIdx qs = none) (ht : state.topic = some topic)
    (hs : webSearch (qs.map (fun q => q.getD "")) = .ok sources)
    (hg : gatherExcept (summarize topic) (sources.map Prod.snd) = .ok out)
    (hu : lookupUsage state.token_usage model_name = some u) :
    run_async webSearch summarize model_name max_tokens_per_source state
      = ⟨ExtCall.search (qs.map (fun q => q.getD ""))
            :: sources.map (fun kv => ExtCall.summarize topic kv.2),
         .error .strHasNoValue,
         { state with
             token_usage := addUsage state.token_usage model_name
               ((out.map (fun t => t.token_usage.input_tokens)).sum)
               ((out.map (fun t => t.token_usage.output_tokens)).sum) }⟩ := by
  cases qs with
  | nil => exact absurd rfl hne
  | cons q0 qs0 =>
    cases sources with
    | nil =>
      simp only [run_async, hq, hall, ht, hs, hg, bumpUsage, hu, Option.getD_some,
        strValueAttr]
    | cons s0 srest =>
      simp only [run_async, hq, hall, ht, hs, hg, bumpUsage, hu, Option.getD_some,
        strValueAttr]

/-- C1: when the preconditions hold, the gateway returns N unique sources,
and exactly one of the N concurrent summarization calls fails, `run_async`
raises the provider error and leaves every field of the state — `topic`,
`search_queries`, `token_usage`, `source_str`, `unique_sources`, `steps` —
exactly as it was: no partial merge and no partial usage accumulation. -/
theorem run_async_single_failure_all_or_nothing
    (webSearch : List String → Except String (List (String × Source)))
    (summarize : String → Source → Except String SummarizeOut)
    (model_name : String) (max_tokens_per_source : Nat)
    (state : PipelineState) (qs : List (Option String)) (topic : String)
    (sources : List (String × Source)) (i : Nat) (e : String)
    (hq : state.search_queries = some qs) (hne : qs ≠ [])
    (hall : firstMissingIdx qs = none) (ht : state.topic = some topic)
    (hs : webSearch (qs.map (fun q => q.getD "")) = .ok sources)
    (hi : i < sources.length)
    (hfail : summarize topic (sources.get ⟨i, hi⟩).2 = .error e)
    (hothers : ∀ j (hj : j < sources.length), j ≠ i →
        ∃ o, summarize topic (sources.get ⟨j, hj⟩).2 = .ok o) :
    (∃ e2, (run_async webSearch summarize model_name max_tokens_per_source state).result
        = .error (.provider e2))
    ∧ (run_async webSearch summarize model_name max_tokens_per_source state).state
        = state := by
  obtain ⟨e2, hg⟩ := gatherExcept_error_of_mem (summarize topic) (sources.map Prod.snd)
    ⟨(sources.get ⟨i, hi⟩).2, List.mem_map_of_mem Prod.snd (sources.get_mem i hi), e, hfail⟩
  rw [run_async_gather_error webSearch summarize model_name max_tokens_per_source
    state qs topic sources e2 hq hne hall ht hs hg]
  exact ⟨⟨e2, rfl⟩, rfl⟩

/-- C3: with N summarization calls each reporting its own usage and a
pre-existing (possibly non-zero) `token_usage` entry for the model, once
the fan-out completes the state's entry becomes exactly the old value
plus the sum of the per-call input tokens and the sum of the per-call
output tokens — each call counted exactly once. The run then raises the
unconditional `AttributeError` of `NodeBase.WEB_SEARCH.value`
(line 157), which sits after the usage update, so the exact total is
what the caller observes on the state the raised run leaves behind. -/
theorem run_async_token_usage_additive
    (webSearch : List String → Except String (List (String × Source)))
    (summarize : String → Source → Except String SummarizeOut)
    (model_name : String) (max_tokens_per_source : Nat)
    (state : PipelineState) (qs : List (Option String)) (topic : String)
    (sources : List (String × Source)) (out : List SummarizeOut) (I0 O0 : Nat)
    (hq : state.search_queries = some qs) (hne : qs ≠ [])
    (hall : firstMissingIdx qs = none) (ht : state.topic = some topic)
    (hs : webSearch (qs.map (fun q => q.getD "")) = .ok sources)
    (hcalls : List.Forall₂ (fun src o => summarize topic src = .ok o)
        (sources.map Prod.snd) out)
    (hu : lookupUsage state.token_usage model_name = some ⟨I0, O0⟩) :
    lookupUsage
        (run_async webSearch summarize model_name max_tokens_per_source state).state.token_usage
        model_name
      = some ⟨I0 + (out.map (fun t => t.token_usage.input_tokens)).sum,
              O0 + (out.map (fun t => t.token_usage.output_tokens)).sum⟩
    ∧ (run_async webSearch summarize model_name max_tokens_per_source state).result
        = .error RunError.strHasNoValue := by
  have hg := gatherExcept_of_forall₂ (summarize topic) (sources.map Prod.snd) out hcalls
  rw [run_async_fanout_ok webSearch summarize model_name max_tokens_per_source
    state qs topic sources out ⟨I0, O0⟩ hq hne hall ht hs hg hu]
  exact ⟨lookupUsage_addUsage model_name _ _ ⟨I0, O0⟩ state.token_usage hu, rfl⟩

theorem not_precondition_of_run_eq (o : RunOutcome) (X : RunError)
    (hX : ¬ X.IsPrecondition) (hr : o.result = .error X) :
    ∀ err, o.result = .error err → ¬ err.IsPrecondition := by
  intro err heq
  rw [hr] at heq
  injection heq with h2
  subst h2
  exact hX

/-- C6 (amended): a missing or empty `search_queries`, or a query lacking
its query text, raises a precondition error before any external call (the
call trace is empty); but `topic` is NOT validated up front — with valid
queries and at least one returned unique source, a missing `topic` lets
the external search call go out first and only then does the
`state.topic` access (in the task-building comprehension) raise; and an
empty topic string triggers no precondition error at all: the external
search call and one summarization call per unique source are issued with
the empty topic, and whatever error such a run ends in is never a
precondition error. -/
theorem run_async_validates_queries_not_topic
    (webSearch : List String → Except String (List (String × Source)))
    (summarize : String → Source → Except String SummarizeOut)
    (model_name : String) (max_tokens_per_source : Nat)
    (state : PipelineState) :
    ((state.search_queries = none ∨ state.search_queries = some []
        ∨ (∃ qs, state.search_queries = some qs ∧ none ∈ qs)) →
      (run_async webSearch summarize model_name max_tokens_per_source state).calls = []
      ∧ ∃ err, (run_async webSearch summarize model_name max_tokens_per_source state).result
            = .error err ∧ err.IsPrecondition)
    ∧ (∀ (qs : List (Option String)) (sources : List (String × Source)),
        state.search_queries = some qs → qs ≠ [] → firstMissingIdx qs = none →
        state.topic = none →
        webSearch (qs.map (fun q => q.getD "")) = .ok sources → sources ≠ [] →
        (run_async webSearch summarize model_name max_tokens_per_source state).calls
            = [ExtCall.search (qs.map (fun q => q.getD ""))]
        ∧ (run_async webSearch summarize model_name max_tokens_per_source state).result
            = .error .missingTopic)
    ∧ (∀ (qs : List (Option String)) (sources : List (String × Source)),
        state.search_queries = some qs → qs ≠ [] → firstMissingIdx qs = none →
        state.topic = some "" →
        webSearch (qs.map (fun q => q.getD "")) = .ok sources →
        (run_async webSearch summarize model_name max_tokens_per_source state).calls
            = ExtCall.search (qs.map (fun q => q.getD ""))
                :: sources.map (fun kv => ExtCall.summarize "" kv.2)
        ∧ (∀ err, (run_async webSearch summarize model_name max_tokens_per_source state).result
              = .error err → ¬ err.IsPrecondition)) := by
  refine ⟨?_, ?_, ?_⟩
  · intro h
    rcases h with hq | hq | ⟨qs, hq, hnone⟩
    · have hrun : run_async webSearch summarize model_name max_tokens_per_source state
          = ⟨[], .error .missingSearchQueries, state⟩ := by
        simp only [run_async, hq]
      rw [hrun]
      exact ⟨rfl, ⟨RunError.missingSearchQueries, ⟨rfl, trivial⟩⟩⟩
    · have hrun : run_async webSearch summarize model_name max_tokens_per_source state
          = ⟨[], .error .emptySearchQueries, state⟩ := by
        simp only [run_async, hq]
      rw [hrun]
      exact ⟨rfl, ⟨RunError.emptySearchQueries, ⟨rfl, trivial⟩⟩⟩
    · cases qs with
      | nil => exact absurd hnone (List.not_mem_nil none)
      | cons q0 qs0 =>
        obtain ⟨i, hi⟩ := exists_firstMissingIdx_of_mem (q0 :: qs0) hnone
        have hrun : run_async webSearch summarize model_name max_tokens_per_source state
            = ⟨[], .error (.queryMissingText i), state⟩ := by
          simp only [run_async, hq, hi]
        rw [hrun]
        exact ⟨rfl, ⟨RunError.queryMissingText i, ⟨rfl, trivial⟩⟩⟩
  · intro qs sources hq hne hall ht hs hsrc
    cases qs with
    | nil => exact absurd rfl hne
    | cons q0 qs0 =>
      cases sources with
      | nil => exact absurd rfl hsrc
      | cons s0 srest =>
        have hrun : run_async webSearch summarize model_name max_tokens_per_source state
            = ⟨[ExtCall.search ((q0 :: qs0).map (fun q => q.getD ""))],
               .error .missingTopic, state⟩ := by
          simp only [run_async, hq, hall, ht, hs]
        rw [hrun]
        exact ⟨rfl, rfl⟩
  · intro qs sources hq hne hall ht hs
    cases qs with
    | nil => exact absurd rfl hne
    | cons q0 qs0 =>
      cases sources with
      | nil =>
        cases hl : lookupUsage state.token_usage model_name with
        | none =>
          refine ⟨?_, not_precondition_of_run_eq _ RunError.usageKeyMissing
            (fun hc => hc) ?_⟩
          · simp only [run_async, hq, hall, ht, hs, Option.getD_some, gatherExcept,
              bumpUsage, hl, List.map_nil]
          · simp only [run_async, hq, hall, ht, hs, Option.getD_some, gatherExcept,
              bumpUsage, hl]
        | some u =>
          refine ⟨?_, not_precondition_of_run_eq _ RunError.strHasNoValue
            (fun hc => hc) ?_⟩
          · simp only [run_async, hq, hall, ht, hs, Option.getD_some, gatherExcept,
              bumpUsage, hl, strValueAttr, List.map_nil]
          · simp only [run_async, hq, hall, ht, hs, Option.getD_some, gatherExcept,
              bumpUsage, hl, strValueAttr]
      | cons s0 srest =>
        cases hg : gatherExcept (summarize "") ((s0 :: srest).map Prod.snd) with
        | error e =>
          refine ⟨?_, not_precondition_of_run_eq _ (RunError.provider e)
            (fun hc => hc) ?_⟩
          · simp only [run_async, hq, hall, ht, hs, Option.getD_some, hg]
          · simp only [run_async, hq, hall, ht, hs, Option.getD_some, hg]
        | ok out =>
          cases hl : lookupUsage state.token_usage model_name with
          | none =>
            refine ⟨?_, not_precondition_of_run_eq _ RunError.usageKeyMissing
              (fun hc => hc) ?_⟩
            · simp only [run_async, hq, hall, ht, hs, Option.getD_some, hg,
                bumpUsage, hl]
            · simp only [run_async, hq, hall, ht, hs, Option.getD_some, hg,
                bumpUsage, hl]
          | some u =>
            refine ⟨?_, not_precondition_of_run_eq _ RunError.strHasNoValue
              (fun hc => hc) ?_⟩
            · simp only [run_async, hq, hall, ht, hs, Option.getD_some, hg,
                bumpUsage, hl, strValueAttr]
            · simp only [run_async, hq, hall, ht, hs, Option.getD_some, hg,
                bumpUsage, hl, strValueAttr]

/-- Counterexample to C6 as stated: the claim requires a missing or empty
`topic` to raise a precondition error before any external search call,
but on a state with valid queries and no `topic` attribute `run_async`
issues the external search call first and only then raises the
(non-precondition) topic attribute error; on a state whose topic is the
empty string no precondition error is raised either — the search call and
a summarization call go out with the empty topic, and the run ends in the
line-157 `AttributeError`, which is not a precondition error; and when
the search returns zero unique sources even a missing topic is never
diagnosed (the run fails only at that same later `AttributeError`). -/
theorem run_async_topic_not_validated :
    stNoTopic.topic = none
    ∧ (run_async wsOne sumFail "m" 5 stNoTopic).calls = [ExtCall.search ["q"]]
    ∧ (run_async wsOne sumFail "m" 5 stNoTopic).result = .error RunError.missingTopic
    ∧ ¬ RunError.IsPrecondition RunError.missingTopic
    ∧ stEmptyTopic.topic = some ""
    ∧ (run_async wsOne sumUse "m" 5 stEmptyTopic).calls
        = [ExtCall.search ["q"], ExtCall.summarize "" srcW1]
    ∧ (run_async wsOne sumUse "m" 5 stEmptyTopic).result = .error RunError.strHasNoValue
    ∧ ¬ RunError.IsPrecondition RunError.strHasNoValue
    ∧ (run_async wsEmpty sumUse "m" 5 stNoTopic).calls = [ExtCall.search ["q"]]
    ∧ (run_async wsEmpty sumUse "m" 5 stNoTopic).result = .error RunError.strHasNoValue := by
  exact ⟨rfl, rfl, rfl, fun hc => hc, rfl, rfl, rfl, fun hc => hc, rfl, rfl⟩

/-- Witness for C1 at a concrete run: one source, its single summarization
call fails, the result is a provider error and the state is untouched. -/
theorem run_async_single_failure_all_or_nothing_witness :
    (run_async wsOne sumFail "m" 5 stBase).state = stBase
    ∧ ∃ e2, (run_async wsOne sumFail "m" 5 stBase).result
        = .error (.provider e2) := by
  have h := run_async_single_failure_all_or_nothing wsOne sumFail "m" 5 stBase
    [some "q"] "t" [("https://a", srcW1)] 0 "rate limit"
    rfl (by decide) rfl rfl rfl (by decide) rfl
    (fun j hj hne2 => absurd (by simp only [List.length_singleton] at hj; omega) hne2)
  exact ⟨h.2, h.1⟩

/-- Witness for C3 at a concrete run: starting usage `(7, 5)` and two
calls reporting `(3, 4)` and `(10, 20)` leave exactly `(20, 29)` on the
state, with the run ending at the line-157 `AttributeError`. -/
theorem run_async_token_usage_additive_witness :
    lookupUsage stBase.token_usage "m" = some ⟨7, 5⟩
    ∧ lookupUsage (run_async wsTwo sumUse "m" 5 stBase).state.token_usage "m"
        = some ⟨20, 29⟩
    ∧ (run_async wsTwo sumUse "m" 5 stBase).result = .error RunError.strHasNoValue := by
  have h := run_async_token_usage_additive wsTwo sumUse "m" 5 stBase
    [some "q"] "t" [("https://a", srcW1), ("https://b", srcW2)]
    [⟨"summary", ⟨3, 4⟩⟩, ⟨"summary", ⟨10, 20⟩⟩] 7 5
    rfl (by decide) rfl rfl rfl
    (List.Forall₂.cons rfl (List.Forall₂.cons rfl List.Forall₂.nil))
    rfl
  refine ⟨rfl, ?_, h.2⟩
  rw [h.1]
  rfl

/-- Witness for the amended C6: a state without `search_queries` raises a
precondition error with no external call issued; a state with valid
queries but no `topic` gets its search call before failing on the topic;
and a state with an empty topic issues the search call and one
summarization call, any error of that run being non-precondition. -/
theorem run_async_validates_queries_not_topic_witness :
    (run_async wsOne sumUse "m" 5 stNoQueries).calls = []
    ∧ (∃ err, (run_async wsOne sumUse "m" 5 stNoQueries).result = .error err
        ∧ err.IsPrecondition)
    ∧ (run_async wsOne sumUse "m" 5 stNoTopic).calls = [ExtCall.search ["q"]]
    ∧ (run_async wsOne sumUse "m" 5 stNoTopic).result = .error RunError.missingTopic
    ∧ (run_async wsOne sumUse "m" 5 stEmptyTopic).calls
        = [ExtCall.search ["q"], ExtCall.summarize "" srcW1]
    ∧ ¬ RunError.IsPrecondition RunError.strHasNoValue := by
  have h1 := (run_async_validates_queries_not_topic wsOne sumUse "m" 5 stNoQueries).1
    (Or.inl rfl)
  have h2 := (run_async_validates_queries_not_topic wsOne sumUse "m" 5 stNoTopic).2.1
    [some "q"] [("https://a", srcW1)] rfl (by decide) rfl rfl rfl (by decide)
  have h3 := (run_async_validates_queries_not_topic wsOne sumUse "m" 5 stEmptyTopic).2.2
    [some "q"] [("https://a", srcW1)] rfl (by decide) rfl rfl rfl
  exact ⟨h1.1, h1.2, h2.1, h2.2, h3.1, h3.2 RunError.strHasNoValue rfl⟩

end AiCommon
